import Mathlib

/-!
Verification of the ECC508 driver (ArduinoBearSSL, src/utility/ECC508.cpp).

The driver speaks a binary command/response protocol to an ATECC508-style
crypto coprocessor over a two-wire bus.  We embed the protocol engine
shallowly:

* pure parts (CRC-16 checksum, command-frame construction, response-frame
  validation) become pure Lean functions over lists of bytes (`Nat`,
  reduced modulo 256 where the C code uses `byte`);
* bus-effecting code becomes a state-passing computation `M` over an
  explicit bus `Oracle` (which answers every `requestFrom`, `sendTo` and
  `endTransmission` with arbitrary results, indexed by call number) and a
  state `St` recording a trace of bus events, so that claims about which
  bus transactions happen (and in what order) are provable for every
  possible device behaviour.
-/

namespace ECC508

/-- Truncate a value to one byte, as the C `byte` type does. -/
def toByte (n : Nat) : Nat := n % 256

/-- The contents of a C byte buffer of size `size` filled by copying
`l` into it: each stored element is a byte, the copied prefix is `l`
(truncated to `size`), the rest of the buffer is zero. -/
def fill (size : Nat) (l : List Nat) : List Nat :=
  (l.map toByte).take size ++ List.replicate (size - l.length) 0

/-- A 16-bit little-endian value from two bytes (`lo | (hi << 8)`). -/
def le16 (lo hi : Nat) : Nat := lo + 256 * hi

/-- The 32-bit little-endian value a `memcpy` into a `uint32_t` produces
from a 4-byte buffer. -/
def le32 (p : List Nat) : Nat :=
  p.getD 0 0 + 256 * p.getD 1 0 + 65536 * p.getD 2 0 + 16777216 * p.getD 3 0

/-- One bit position of `ECC508Class::crc16`'s inner loop (`shift` is
`2 ^ k`): `dataBit = (b & shift) ? 1 : 0`, `crcBit = crc >> 15`, shift
the accumulator left (as `uint16_t`), XOR in the polynomial `0x8005`
when the two bits differ. -/
def crcBitStep (b c k : Nat) : Nat :=
  let dataBit : Nat := if Nat.land (b % 256) (2 ^ k) ≠ 0 then 1 else 0
  let crcBit : Nat := c / 2 ^ 15
  let c2 : Nat := (c * 2) % 65536
  if dataBit ≠ crcBit then Nat.xor c2 0x8005 else c2

/-- One byte of `ECC508Class::crc16`'s outer loop: the 8 bit positions
of the byte, least significant first (`shift` running
`0x01, 0x02, ..., 0x80`). -/
def crc16step (crc b : Nat) : Nat :=
  (List.range 8).foldl (crcBitStep b) crc

/-- `ECC508Class::crc16`: accumulator starts at 0; null or empty input
yields 0. -/
def crc16 (data : List Nat) : Nat :=
  if data.isEmpty then 0 else data.foldl crc16step 0

/-- The bytes of a command frame that `ECC508Class::sendCommand` covers
with the checksum: the length byte (full frame size minus the type
byte), opcode, param1, the two little-endian bytes of the `uint16_t`
param2, and the payload. -/
def commandBody (opcode param1 param2 : Nat) (data : List Nat) : List Nat :=
  toByte (7 + data.length) :: toByte opcode :: toByte param1 ::
    toByte param2 :: toByte (param2 / 256) :: data.map toByte

/-- The full command frame assembled by `ECC508Class::sendCommand`:
type byte `0x03`, then the body, then the two checksum bytes
(`crc16(&command[1], 8 - 3 + dataLength)`, stored least-significant
byte first). -/
def commandFrame (opcode param1 param2 : Nat) (data : List Nat) : List Nat :=
  let body := commandBody opcode param1 param2 data
  let c := crc16 body
  3 :: body ++ [toByte c, toByte (c / 256)]

/-- The pure validation part of `ECC508Class::receiveResponse`, applied
to the raw `length + 3`-byte buffer obtained from the bus: the declared
length byte must equal the full response size `length + 3`; the trailing
two bytes, read as a little-endian 16-bit value, must equal the checksum
over the length byte and payload; only then is the payload (bytes 1
through `length`) returned. -/
def receiveCheck (length : Nat) (buf : List Nat) : Option (List Nat) :=
  if buf.getD 0 0 ≠ length + 3 then none
  else if le16 (buf.getD (length + 1) 0) (buf.getD (length + 2) 0) ≠
      crc16 (buf.take (length + 3 - 2)) then none
  else some ((buf.drop 1).take length)

/-- One observable transaction on the two-wire bus (plus the blocking
delays the driver interleaves, recorded for completeness). -/
inductive BusEvent where
  | busBegin : BusEvent
  | setClock (hz : Nat) : BusEvent
  | beginTx (addr : Nat) : BusEvent
  | writeByte (b : Nat) : BusEvent
  | endTx : BusEvent
  | sendTo (addr : Nat) (data : List Nat) : BusEvent
  | requestFrom (addr : Nat) (size : Nat) : BusEvent
  | delayMs (n : Nat) : BusEvent
  | delayUs (n : Nat) : BusEvent
deriving DecidableEq, Repr

/-- The environment's side of the bus: the result of the `i`-th
`requestFrom` (number of bytes transferred, and the resulting contents
of the caller's buffer — arbitrary, so short reads leaving stale or
uninitialized bytes are covered), the return code of the `i`-th
`sendTo`, and the return code of the `i`-th `endTransmission`. -/
structure Oracle where
  req : Nat → Nat × List Nat
  send : Nat → Nat
  endTx : Nat → Nat

/-- Driver-visible bus state: how many calls of each kind have happened
(indexing the oracle) and the trace of bus events so far. -/
structure St where
  reqCount : Nat
  sendCount : Nat
  endCount : Nat
  trace : List BusEvent
deriving DecidableEq, Repr

/-- The initial bus state. -/
def St.init : St := ⟨0, 0, 0, []⟩

/-- A bus computation: reads the oracle, threads the state. -/
def M (α : Type) : Type := Oracle → St → α × St

instance : Monad M where
  pure a := fun _ s => (a, s)
  bind x f := fun o s =>
    let r := x o s
    f r.1 o r.2

/-- Append one event to the trace. -/
def emit (e : BusEvent) : M Unit :=
  fun _ s => ((), { s with trace := s.trace ++ [e] })

/-- `Wire.beginTransmission(addr)`. -/
def beginTransmission (addr : Nat) : M Unit := emit (.beginTx addr)

/-- `Wire.write(b)` of a single byte. -/
def wireWrite (b : Nat) : M Unit := emit (.writeByte b)

/-- `Wire.endTransmission()`, with its oracle-chosen return code. -/
def endTransmission : M Nat :=
  fun o s =>
    (o.endTx s.endCount,
     { s with endCount := s.endCount + 1, trace := s.trace ++ [.endTx] })

/-- `Wire.sendTo(addr, data, len)`, with its oracle-chosen return code. -/
def sendTo (addr : Nat) (data : List Nat) : M Nat :=
  fun o s =>
    (o.send s.sendCount,
     { s with sendCount := s.sendCount + 1,
              trace := s.trace ++ [.sendTo addr data] })

/-- `Wire.requestFrom(addr, buf, size)`: returns the transferred count
and the resulting contents of the `size`-byte buffer. -/
def requestFrom (addr size : Nat) : M (Nat × List Nat) :=
  fun o s =>
    (((o.req s.reqCount).1, fill size (o.req s.reqCount).2),
     { s with reqCount := s.reqCount + 1,
              trace := s.trace ++ [.requestFrom addr size] })

/-- `delay(n)` (milliseconds). -/
def delay (n : Nat) : M Unit := emit (.delayMs n)

/-- `delayMicroseconds(n)`. -/
def delayMicroseconds (n : Nat) : M Unit := emit (.delayUs n)

/-- The retry loop of `ECC508Class::receiveResponse`:
`while (_wire->requestFrom(_address, responseBuffer, responseSize) !=
responseSize && retries--);` — re-reads while the transferred size is
wrong and retries remain; the buffer contents of the last read (whether
or not it transferred fully) are what gets validated. -/
def pollResponse (addr size : Nat) : Nat → M (List Nat)
  | 0 => do
    let r ← requestFrom addr size
    pure r.2
  | retries + 1 => do
    let r ← requestFrom addr size
    if r.1 = size then pure r.2
    else pollResponse addr size retries

/-- `ECC508Class::receiveResponse`: poll the bus (retry budget 20), then
validate the buffer with `receiveCheck`; validation failure is not
retried. -/
def receiveResponse (addr length : Nat) : M (Option (List Nat)) := do
  let buf ← pollResponse addr (length + 3) 20
  pure (receiveCheck length buf)

/-- `ECC508Class::sendCommand`: assemble the command frame and write it
to the addressed device; fails iff the bus write reports failure. -/
def sendCommand (addr opcode param1 param2 : Nat) (data : List Nat) : M Nat := do
  let r ← sendTo addr (commandFrame opcode param1 param2 data)
  if r ≠ 0 then pure 0 else pure 1

/-- `ECC508Class::wakeup`: general-call transmission to address 0, an
800 µs settle delay, then a 1-byte response that must equal `0x11`. -/
def wakeup (addr : Nat) : M Nat := do
  beginTransmission 0
  let _ ← endTransmission
  delayMicroseconds 800
  let r ← receiveResponse addr 1
  match r with
  | none => pure 0
  | some p => if p.getD 0 0 ≠ 0x11 then pure 0 else pure 1

/-- `ECC508Class::idle`: single control byte `0x02` to the device. -/
def idle (addr : Nat) : M Nat := do
  beginTransmission addr
  wireWrite 0x02
  let e ← endTransmission
  if e ≠ 0 then pure 0 else pure 1

/-- `ECC508Class::sleep`: single control byte `0x01` to the device. -/
def sleep (addr : Nat) : M Nat := do
  beginTransmission addr
  wireWrite 0x01
  let e ← endTransmission
  if e ≠ 0 then pure 0 else pure 1

/-- The common tail of `ECC508Class::write`, `lock` and `challenge`
after their wakeup: send the command frame, wait the opcode's
processing delay, receive a 1-byte status, settle, idle, and succeed
iff the status byte is zero. -/
def commandStatus (addr opcode param1 param2 : Nat) (data : List Nat)
    (wait : Nat) : M Nat := do
  let sOk ← sendCommand addr opcode param1 param2 data
  if sOk = 0 then pure 0
  else do
    delay wait
    let r ← receiveResponse addr 1
    match r with
    | none => pure 0
    | some st => do
      delay 1
      let _ ← idle addr
      if st.getD 0 0 ≠ 0 then pure 0 else pure 1

/-- The common tail of `ECC508Class::read`, `sign` and `version` after
their wakeup: send the command frame, wait the opcode's processing
delay, receive a `respLen`-byte payload, settle, idle, and return the
payload. -/
def commandResponse (addr opcode param1 param2 : Nat) (data : List Nat)
    (wait respLen : Nat) : M (Option (List Nat)) := do
  let sOk ← sendCommand addr opcode param1 param2 data
  if sOk = 0 then pure none
  else do
    delay wait
    let r ← receiveResponse addr respLen
    match r with
    | none => pure none
    | some buf => do
      delay 1
      let _ ← idle addr
      pure (some buf)

/-- `ECC508Class::read`: wakeup first, then reject lengths other than 4
or 32, set the high zone bit for 32-byte reads, and run the read
command (opcode `0x02`, 1 ms delay).  The source returns `length` on
success and 0 on failure; we model success as `some payload`. -/
def read (addr zone address length : Nat) : M (Option (List Nat)) := do
  let w ← wakeup addr
  if w = 0 then pure none
  else if length ≠ 4 ∧ length ≠ 32 then pure none
  else
    commandResponse addr 0x02
      (if length = 32 then Nat.lor zone 0x80 else zone) address [] 1 length

/-- `ECC508Class::write`: wakeup first, then reject lengths other than
4 or 32, set the high zone bit for 32-byte writes, and run the write
command (opcode `0x12`, 26 ms delay, 1-byte status). -/
def write (addr zone address : Nat) (buffer : List Nat) (length : Nat) : M Nat := do
  let w ← wakeup addr
  if w = 0 then pure 0
  else if length ≠ 4 ∧ length ≠ 32 then pure 0
  else
    commandStatus addr 0x12
      (if length = 32 then Nat.lor zone 0x80 else zone) address
      (fill length buffer) 26

/-- `ECC508Class::lock(int zone)`: wakeup, then the lock command
(opcode `0x17`, param1 `0x80 | zone`, 32 ms delay, 1-byte status). -/
def lockZone (addr zone : Nat) : M Nat := do
  let w ← wakeup addr
  if w = 0 then pure 0
  else commandStatus addr 0x17 (Nat.lor 0x80 zone) 0 [] 32

/-- `ECC508Class::lock()`: lock the configuration zone (0), then the
data/OTP zone (1); each failure short-circuits. -/
def lock (addr : Nat) : M Nat := do
  let r0 ← lockZone addr 0
  if r0 = 0 then pure 0
  else do
    let r1 ← lockZone addr 1
    if r1 = 0 then pure 0 else pure 1

/-- `ECC508Class::challenge`: wakeup, then the nonce pass-through
command (opcode `0x16`, param1 3, 32-byte message, 7 ms delay, 1-byte
status). -/
def challenge (addr : Nat) (message : List Nat) : M Nat := do
  let w ← wakeup addr
  if w = 0 then pure 0
  else commandStatus addr 0x16 0x03 0 (fill 32 message) 7

/-- `ECC508Class::sign`: wakeup, then the sign command (opcode `0x41`,
param1 `0x80`, param2 = slot, 50 ms delay, 64-byte signature). -/
def sign (addr slot : Nat) : M (Option (List Nat)) := do
  let w ← wakeup addr
  if w = 0 then pure none
  else commandResponse addr 0x41 0x80 slot [] 50 64

/-- The `while (length)` loop of `ECC508Class::random`: each round
sends the random command (opcode `0x1b`), waits 23 ms, receives 32
bytes and consumes `min 32 length` of them. -/
def randomLoop (addr : Nat) (length : Nat) : M (Option (List Nat)) :=
  if length = 0 then pure (some [])
  else do
    let sOk ← sendCommand addr 0x1b 0x00 0x0000 []
    if sOk = 0 then pure none
    else do
      delay 23
      let r ← receiveResponse addr 32
      match r with
      | none => pure none
      | some resp => do
        let copyLength := min 32 length
        let rest ← randomLoop addr (length - copyLength)
        pure (rest.map (fun others => resp.take copyLength ++ others))
termination_by length
decreasing_by
  omega

/-- `ECC508Class::random`: wakeup, run the loop, then settle and idle.
The source fills a caller buffer and returns 1; we return the bytes. -/
def random (addr : Nat) (length : Nat) : M (Option (List Nat)) := do
  let w ← wakeup addr
  if w = 0 then pure none
  else do
    let r ← randomLoop addr length
    match r with
    | none => pure none
    | some bytes => do
      delay 1
      let _ ← idle addr
      pure (some bytes)

/-- `ECC508Class::ecSign`: generate 32 random bytes, load the message
via the challenge command, then sign over the slot; each failure
short-circuits. -/
def ecSign (addr slot : Nat) (message : List Nat) : M (Option (List Nat)) := do
  let r ← random addr 32
  match r with
  | none => pure none
  | some _ => do
    let c ← challenge addr message
    if c = 0 then pure none
    else sign addr slot

/-- `ECC508Class::version`: wakeup, then the info command (opcode
`0x30`, 1 ms delay, 4-byte payload read little-endian into a
`uint32_t`); any failure yields 0. -/
def version (addr : Nat) : M Nat := do
  let w ← wakeup addr
  if w = 0 then pure 0
  else do
    let r ← commandResponse addr 0x30 0x00 0x0000 [] 1 4
    match r with
    | none => pure 0
    | some p => pure (le32 p)

/-- `ECC508Class::begin`: open the bus at 100 kHz and require the
version word to be exactly `0x500000`. -/
def begin (addr : Nat) : M Nat := do
  emit .busBegin
  emit (.setClock 100000)
  let v ← version addr
  if v ≠ 0x500000 then pure 0 else pure 1

/-- `ECC508Class::locked`: read 4 configuration bytes at word address
`0x15`; locked iff bytes 2 and 3 are both zero; a failed read reports
not locked. -/
def locked (addr : Nat) : M Nat := do
  let r ← read addr 0 0x15 4
  match r with
  | none => pure 0
  | some config =>
    if config.getD 2 0 = 0 ∧ config.getD 3 0 = 0 then pure 1 else pure 0

/-- The word offsets `16, 20, ..., 124` visited by the loop
`for (int i = 16; i < 128; i += 4)` of `ECC508Class::writeConfiguration`. -/
def configOffsets : List Nat := (List.range 28).map (fun k => 16 + 4 * k)

/-- The loop body of `ECC508Class::writeConfiguration`: for each byte
offset, skip offset 84, otherwise write the 4-byte word at word address
`i / 4`; a failed write aborts with 0. -/
def writeConfigLoop (addr : Nat) (data : List Nat) : List Nat → M Nat
  | [] => pure 1
  | i :: rest =>
    if i = 84 then writeConfigLoop addr data rest
    else do
      let w ← write addr 0 (i / 4) ((data.drop i).take 4) 4
      if w = 0 then pure 0 else writeConfigLoop addr data rest

/-- `ECC508Class::writeConfiguration`: the first 16 bytes are never
written (the loop starts at 16) and byte offset 84 is skipped. -/
def writeConfiguration (addr : Nat) (data : List Nat) : M Nat :=
  writeConfigLoop addr data configOffsets

/-- The command frames written to the device (via `sendTo`) in a
trace, in order. -/
def sentData (t : List BusEvent) : List (List Nat) :=
  t.filterMap (fun e =>
    match e with
    | .sendTo _ d => some d
    | _ => none)

/-- The command frames a state has seen so far. -/
def sent (s : St) : List (List Nat) := sentData s.trace

/-- Spec-side checksum bit step, following §4.1 of the specification
verbatim: compare the data bit (a `Bool`) with the current top bit of
the 16-bit accumulator, left-shift the accumulator, and XOR with the
polynomial constant `0x8005` exactly when the two compared bits
differ.  Used only to state the refinement claim about `crc16`. -/
def specBitStep (acc : Nat) (dataBit : Bool) : Nat :=
  let top := acc.testBit 15
  let acc2 := (acc * 2) % 65536
  if dataBit ≠ top then Nat.xor acc2 0x8005 else acc2

/-- The 8 bits of a byte, least significant first (spec-side). -/
def byteBitsLSB (b : Nat) : List Bool :=
  (List.range 8).map (fun k => (b % 256).testBit k)

/-- Spec-side checksum (§4.1): accumulator starts at 0; for each input
byte, process its 8 bits least-significant first. -/
def checksumSpec (data : List Nat) : Nat :=
  data.foldl (fun acc b => (byteBitsLSB b).foldl specBitStep acc) 0

/-- The validated payload the version exchange of `ECC508Class::version`
yields: `none` if the wakeup, the command write, or the response
validation fails, otherwise the 4-byte payload. -/
def versionPayload (addr : Nat) (o : Oracle) (s : St) : Option (List Nat) :=
  let w := wakeup addr o s
  if w.1 = 0 then none
  else
    let sc := sendCommand addr 0x30 0x00 0x0000 [] o w.2
    if sc.1 = 0 then none
    else (receiveResponse addr 4 o ((delay 1 o sc.2).2)).1

/-! ### Running computations -/

theorem bind_run {α β : Type} (x : M α) (f : α → M β) (o : Oracle) (s : St) :
    (x >>= f) o s = f (x o s).1 o (x o s).2 := rfl

theorem pure_run {α : Type} (a : α) (o : Oracle) (s : St) :
    (pure a : M α) o s = (a, s) := rfl

theorem ite_run {α : Type} (c : Prop) [Decidable c] (x y : M α) (o : Oracle) (s : St) :
    (if c then x else y) o s = if c then x o s else y o s := by
  split <;> rfl

/-! ### Which frames a computation sends -/

theorem sentData_append (t₁ t₂ : List BusEvent) :
    sentData (t₁ ++ t₂) = sentData t₁ ++ sentData t₂ := by
  simp [sentData]

theorem sent_emit (e : BusEvent) (o : Oracle) (s : St)
    (h : ∀ a d, e ≠ .sendTo a d) : sent ((emit e o s).2) = sent s := by
  cases e <;> simp [emit, sent, sentData_append, sentData] at h ⊢

theorem sent_endTransmission (o : Oracle) (s : St) :
    sent ((endTransmission o s).2) = sent s := by
  simp [endTransmission, sent, sentData_append, sentData]

theorem sent_requestFrom (addr size : Nat) (o : Oracle) (s : St) :
    sent ((requestFrom addr size o s).2) = sent s := by
  simp [requestFrom, sent, sentData_append, sentData]

theorem sent_sendTo (addr : Nat) (d : List Nat) (o : Oracle) (s : St) :
    sent ((sendTo addr d o s).2) = sent s ++ [d] := by
  simp [sendTo, sent, sentData_append, sentData]

theorem sent_delay (n : Nat) (o : Oracle) (s : St) :
    sent ((delay n o s).2) = sent s := by
  simp [delay, emit, sent, sentData_append, sentData]

theorem sent_delayMicroseconds (n : Nat) (o : Oracle) (s : St) :
    sent ((delayMicroseconds n o s).2) = sent s := by
  simp [delayMicroseconds, emit, sent, sentData_append, sentData]

theorem sent_beginTransmission (addr : Nat) (o : Oracle) (s : St) :
    sent ((beginTransmission addr o s).2) = sent s := by
  simp [beginTransmission, emit, sent, sentData_append, sentData]

theorem sent_wireWrite (b : Nat) (o : Oracle) (s : St) :
    sent ((wireWrite b o s).2) = sent s := by
  simp [wireWrite, emit, sent, sentData_append, sentData]

theorem sent_pollResponse (addr size : Nat) (n : Nat) (o : Oracle) (s : St) :
    sent ((pollResponse addr size n o s).2) = sent s := by
  induction n generalizing s with
  | zero =>
    simp [pollResponse, bind_run, pure_run, sent_requestFrom]
  | succ k ih =>
    simp only [pollResponse, bind_run, ite_run]
    split
    · simp [pure_run, sent_requestFrom]
    · rw [ih]
      exact sent_requestFrom addr size o s

theorem sent_receiveResponse (addr len : Nat) (o : Oracle) (s : St) :
    sent ((receiveResponse addr len o s).2) = sent s := by
  simp [receiveResponse, bind_run, pure_run, sent_pollResponse]

theorem sent_sendCommand (addr op p1 p2 : Nat) (d : List Nat) (o : Oracle) (s : St) :
    sent ((sendCommand addr op p1 p2 d o s).2) =
      sent s ++ [commandFrame op p1 p2 d] := by
  simp only [sendCommand, bind_run, ite_run]
  split <;> simp [pure_run, sent_sendTo]

theorem sent_wakeup (addr : Nat) (o : Oracle) (s : St) :
    sent ((wakeup addr o s).2) = sent s := by
  simp only [wakeup, bind_run]
  rcases h : (receiveResponse addr 1 o
      ((delayMicroseconds 800 o ((endTransmission o
        ((beginTransmission 0 o s).2)).2)).2)).1 with _ | p
  · simp [pure_run, sent_receiveResponse, sent_delayMicroseconds,
      sent_endTransmission, sent_beginTransmission]
  · simp only [ite_run]
    split <;>
      simp [pure_run, sent_receiveResponse, sent_delayMicroseconds,
        sent_endTransmission, sent_beginTransmission]

theorem sent_idle (addr : Nat) (o : Oracle) (s : St) :
    sent ((idle addr o s).2) = sent s := by
  simp only [idle, bind_run, ite_run]
  split <;>
    simp [pure_run, sent_endTransmission, sent_wireWrite, sent_beginTransmission]

/-! ### Shape of command exchanges -/

theorem commandStatus_char (addr op p1 p2 : Nat) (d : List Nat) (wait : Nat)
    (o : Oracle) (s : St) :
    ((commandStatus addr op p1 p2 d wait o s).1 = 0 ∨
      (commandStatus addr op p1 p2 d wait o s).1 = 1) ∧
    sent ((commandStatus addr op p1 p2 d wait o s).2) =
      sent s ++ [commandFrame op p1 p2 d] := by
  simp only [commandStatus, bind_run, ite_run]
  split
  · simp [pure_run, sent_sendCommand]
  · rcases h : (receiveResponse addr 1 o
        ((delay wait o ((sendCommand addr op p1 p2 d o s).2)).2)).1 with _ | st
    · simp [pure_run, sent_receiveResponse, sent_delay, sent_sendCommand]
    · simp only [bind_run, ite_run]
      split <;>
        simp [pure_run, sent_idle, sent_delay, sent_receiveResponse,
          sent_sendCommand]

theorem commandResponse_char (addr op p1 p2 : Nat) (d : List Nat)
    (wait respLen : Nat) (o : Oracle) (s : St) :
    sent ((commandResponse addr op p1 p2 d wait respLen o s).2) =
      sent s ++ [commandFrame op p1 p2 d] := by
  simp only [commandResponse, bind_run, ite_run]
  split
  · simp [pure_run, sent_sendCommand]
  · rcases h : (receiveResponse addr respLen o
        ((delay wait o ((sendCommand addr op p1 p2 d o s).2)).2)).1 with _ | buf
    · simp [pure_run, sent_receiveResponse, sent_delay, sent_sendCommand]
    · simp [bind_run, pure_run, sent_idle, sent_delay, sent_receiveResponse,
        sent_sendCommand]

theorem write_char (addr z a : Nat) (buf : List Nat) (o : Oracle) (s : St) :
    ((write addr z a buf 4 o s).1 = 0 ∨ (write addr z a buf 4 o s).1 = 1) ∧
    (sent ((write addr z a buf 4 o s).2) = sent s ∨
      sent ((write addr z a buf 4 o s).2) =
        sent s ++ [commandFrame 0x12 z a (fill 4 buf)]) ∧
    ((write addr z a buf 4 o s).1 = 1 →
      sent ((write addr z a buf 4 o s).2) =
        sent s ++ [commandFrame 0x12 z a (fill 4 buf)]) := by
  simp only [write, bind_run, ite_run]
  split
  · simp [pure_run, sent_wakeup]
  · have h := commandStatus_char addr 0x12 z a (fill 4 buf) 26 o
      ((wakeup addr o s).2)
    rw [sent_wakeup] at h
    simpa using ⟨h.1, Or.inr h.2, fun _ => h.2⟩

theorem lockZone_char (addr z : Nat) (o : Oracle) (s : St) :
    ((lockZone addr z o s).1 = 0 ∨ (lockZone addr z o s).1 = 1) ∧
    (sent ((lockZone addr z o s).2) = sent s ∨
      sent ((lockZone addr z o s).2) =
        sent s ++ [commandFrame 0x17 (Nat.lor 0x80 z) 0 []]) ∧
    ((lockZone addr z o s).1 = 1 →
      sent ((lockZone addr z o s).2) =
        sent s ++ [commandFrame 0x17 (Nat.lor 0x80 z) 0 []]) := by
  simp only [lockZone, bind_run, ite_run]
  split
  · simp [pure_run, sent_wakeup]
  · have h := commandStatus_char addr 0x17 (Nat.lor 0x80 z) 0 [] 32 o
      ((wakeup addr o s).2)
    rw [sent_wakeup] at h
    exact ⟨h.1, Or.inr h.2, fun _ => h.2⟩

/-! ### Sizes and byte ranges of received payloads -/

theorem fill_length (size : Nat) (l : List Nat) : (fill size l).length = size := by
  simp [fill]
  omega

theorem fill_mem (size : Nat) (l : List Nat) :
    ∀ b ∈ fill size l, b < 256 := by
  intro b hb
  simp only [fill, List.mem_append] at hb
  rcases hb with h | h
  · have := List.take_subset size (l.map toByte) h
    simp only [List.mem_map] at this
    obtain ⟨x, _, hx⟩ := this
    simp [toByte, ← hx]
    omega
  · simp [List.eq_of_mem_replicate h]

theorem pollResponse_shape (addr size : Nat) (n : Nat) (o : Oracle) (s : St) :
    (pollResponse addr size n o s).1.length = size ∧
    ∀ b ∈ (pollResponse addr size n o s).1, b < 256 := by
  induction n generalizing s with
  | zero =>
    simp only [pollResponse, bind_run, pure_run, requestFrom]
    exact ⟨fill_length _ _, fill_mem _ _⟩
  | succ k ih =>
    simp only [pollResponse, bind_run, ite_run]
    split
    · simp only [pure_run, requestFrom]
      exact ⟨fill_length _ _, fill_mem _ _⟩
    · exact ih _

theorem receiveCheck_some (length : Nat) (buf : List Nat) (p : List Nat)
    (h : receiveCheck length buf = some p) :
    buf.getD 0 0 = length + 3 ∧
    le16 (buf.getD (length + 1) 0) (buf.getD (length + 2) 0) =
      crc16 (buf.take (length + 1)) ∧
    p = (buf.drop 1).take length := by
  simp only [receiveCheck] at h
  split at h
  · exact absurd h (by simp)
  · split at h
    · exact absurd h (by simp)
    · rename_i h1 h2
      have e : length + 3 - 2 = length + 1 := by omega
      rw [e] at h2
      refine ⟨by omega, by omega, by simpa using h.symm⟩

theorem receiveResponse_some (addr len : Nat) (o : Oracle) (s : St)
    (p : List Nat) (h : (receiveResponse addr len o s).1 = some p) :
    p.length = len ∧ ∀ b ∈ p, b < 256 := by
  simp only [receiveResponse, bind_run, pure_run] at h
  have hs := pollResponse_shape addr (len + 3) 20 o s
  obtain ⟨h0, h1, h2⟩ := receiveCheck_some _ _ _ h
  subst h2
  constructor
  · rw [List.length_take, List.length_drop, hs.1]
    omega
  · intro b hb
    exact hs.2 b (List.drop_subset _ _ (List.take_subset _ _ hb))

/-! ### The checksum algorithm refines the spec's bit-serial description -/

theorem crcBitStep_eq_spec (b c k : Nat) (hc : c < 65536) :
    crcBitStep b c k = specBitStep c ((b % 256).testBit k) ∧
    crcBitStep b c k < 65536 := by
  have hx : (c * 2) % 65536 < 65536 := Nat.mod_lt _ (by norm_num)
  have hxor : Nat.xor ((c * 2) % 65536) 0x8005 < 65536 := by
    have h1 : (c * 2) % 65536 < 2 ^ 16 := hx
    have h2 : (0x8005 : Nat) < 2 ^ 16 := by norm_num
    exact Nat.xor_lt_two_pow h1 h2
  have hdata : (Nat.land (b % 256) (2 ^ k) ≠ 0) ↔ (b % 256).testBit k := by
    have hh : Nat.land (b % 256) (2 ^ k) = (b % 256) &&& 2 ^ k := rfl
    rw [hh, Nat.and_two_pow]
    rcases h : (b % 256).testBit k <;> simp [h]
  have hdiv : c / 2 ^ 15 < 2 := by omega
  have htop : c.testBit 15 = decide (c / 2 ^ 15 = 1) := by
    rw [Nat.testBit_to_div_mod, Nat.mod_eq_of_lt hdiv]
  constructor
  · simp only [crcBitStep, specBitStep]
    have hd : c / 2 ^ 15 = 0 ∨ c / 2 ^ 15 = 1 := by omega
    rcases hd with hd | hd <;> rcases hb : (b % 256).testBit k <;>
      simp_all
  · dsimp only [crcBitStep]
    split <;> split <;> first
      | exact hxor
      | exact hx

theorem crcFold_eq_spec (b : Nat) (ks : List Nat) :
    ∀ c : Nat, c < 65536 →
      ks.foldl (crcBitStep b) c =
        (ks.map (fun k => (b % 256).testBit k)).foldl specBitStep c ∧
      ks.foldl (crcBitStep b) c < 65536 := by
  induction ks with
  | nil => intro c hc; exact ⟨rfl, hc⟩
  | cons k ks ih =>
    intro c hc
    obtain ⟨he, hl⟩ := crcBitStep_eq_spec b c k hc
    obtain ⟨ihe, ihl⟩ := ih (crcBitStep b c k) hl
    refine ⟨?_, by simpa using ihl⟩
    rw [List.foldl_cons, List.map_cons, List.foldl_cons, ← he]
    exact ihe

theorem crc16step_eq_spec (c b : Nat) (hc : c < 65536) :
    crc16step c b = (byteBitsLSB b).foldl specBitStep c ∧
    crc16step c b < 65536 := by
  have := crcFold_eq_spec b (List.range 8) c hc
  simpa [crc16step, byteBitsLSB] using this

theorem crcFoldl_eq_spec (data : List Nat) :
    ∀ c : Nat, c < 65536 →
      data.foldl crc16step c =
        data.foldl (fun acc b => (byteBitsLSB b).foldl specBitStep acc) c ∧
      data.foldl crc16step c < 65536 := by
  induction data with
  | nil => intro c hc; exact ⟨rfl, hc⟩
  | cons b bs ih =>
    intro c hc
    obtain ⟨he, hl⟩ := crc16step_eq_spec c b hc
    obtain ⟨ihe, ihl⟩ := ih (crc16step c b) hl
    refine ⟨?_, by simpa using ihl⟩
    simp only [List.foldl_cons]
    rw [ihe, he]

/-- C2: the checksum function returns 0 on empty input, and on every
byte sequence it computes exactly the spec's bit-serial algorithm
(accumulator 0; per byte, bits least-significant first; compare the
data bit with the accumulator's top bit, shift left, XOR with `0x8005`
when they differ).  (`crc16` is a pure Lean function, so determinism is
inherent; a null C pointer has no counterpart here and also yields 0 in
the source.) -/
theorem C2_checksum_bitserial :
    crc16 [] = 0 ∧ ∀ data : List Nat, crc16 data = checksumSpec data := by
  refine ⟨rfl, fun data => ?_⟩
  cases data with
  | nil => rfl
  | cons b bs =>
    simp only [crc16, checksumSpec, List.isEmpty_cons, Bool.false_eq_true,
      if_false]
    exact (crcFoldl_eq_spec (b :: bs) 0 (by norm_num)).1

/-! ### Command-frame layout -/

theorem commandBody_length (opcode param1 param2 : Nat) (data : List Nat) :
    (commandBody opcode param1 param2 data).length = 5 + data.length := by
  simp [commandBody]
  omega

/-- C3: every command frame starts with the type byte `0x03`; its
length byte is the full frame size minus the type byte; then come the
opcode, param1, the 2-byte little-endian param2 and the payload; the
checksum is computed over the bytes from the length byte through the
end of the payload (the type byte excluded) and appended as the last
two bytes, least-significant byte first. -/
theorem C3_command_frame_layout (opcode param1 param2 : Nat) (data : List Nat) :
    (commandFrame opcode param1 param2 data).length = 8 + data.length ∧
    (commandFrame opcode param1 param2 data).take 1 = [0x03] ∧
    ((commandFrame opcode param1 param2 data).drop 1).take 1 =
      [toByte ((commandFrame opcode param1 param2 data).length - 1)] ∧
    ((commandFrame opcode param1 param2 data).drop 2).take 4 =
      [toByte opcode, toByte param1, toByte param2, toByte (param2 / 256)] ∧
    ((commandFrame opcode param1 param2 data).drop 6).take data.length =
      data.map toByte ∧
    (commandFrame opcode param1 param2 data).drop (6 + data.length) =
      [toByte (crc16 (((commandFrame opcode param1 param2 data).drop 1).take
        (5 + data.length))),
       toByte (crc16 (((commandFrame opcode param1 param2 data).drop 1).take
        (5 + data.length)) / 256)] := by
  have hdrop1 : (commandFrame opcode param1 param2 data).drop 1 =
      commandBody opcode param1 param2 data ++
        [toByte (crc16 (commandBody opcode param1 param2 data)),
         toByte (crc16 (commandBody opcode param1 param2 data) / 256)] := rfl
  have htake : ((commandFrame opcode param1 param2 data).drop 1).take
      (5 + data.length) = commandBody opcode param1 param2 data := by
    rw [hdrop1]
    exact List.take_left' (commandBody_length _ _ _ _)
  have hlen : (commandFrame opcode param1 param2 data).length =
      8 + data.length := by
    simp [commandFrame, commandBody_length, commandBody]
    omega
  refine ⟨hlen, rfl, ?_, ?_, ?_, ?_⟩
  · have e : 8 + data.length - 1 = 7 + data.length := by omega
    rw [hlen, e]
    rfl
  · simp [commandFrame, commandBody]
  · show ((data.map toByte) ++
      [toByte (crc16 (commandBody opcode param1 param2 data)),
       toByte (crc16 (commandBody opcode param1 param2 data) / 256)]).take
        data.length = data.map toByte
    exact List.take_left' (by simp)
  · rw [htake]
    have : (commandFrame opcode param1 param2 data).drop (6 + data.length) =
        ((commandFrame opcode param1 param2 data).drop 1).drop
          (5 + data.length) := by
      rw [List.drop_drop]
      congr 1
      omega
    rw [this, hdrop1]
    exact List.drop_left' (commandBody_length _ _ _ _)

/-! ### Response-frame validation -/

/-- C4: the response validator rejects every buffer whose declared
length byte differs from the expected payload length plus 3, and every
buffer whose trailing little-endian 16-bit checksum differs from the
checksum over the length byte and payload; it yields a payload only
when both checks pass, and that payload is exactly bytes 1 through
`len` of the buffer.  Moreover `receiveResponse` is the retry-free
composition of the bus poll with this validator: its final state is
exactly the post-poll state, whatever the validation outcome, so a
length or checksum mismatch is never retried. -/
theorem C4_response_validation (len : Nat) (buf : List Nat) (addr : Nat)
    (o : Oracle) (s : St) :
    (buf.getD 0 0 ≠ len + 3 → receiveCheck len buf = none) ∧
    (le16 (buf.getD (len + 1) 0) (buf.getD (len + 2) 0) ≠
        crc16 (buf.take (len + 1)) → receiveCheck len buf = none) ∧
    (∀ p, receiveCheck len buf = some p →
      buf.getD 0 0 = len + 3 ∧
      le16 (buf.getD (len + 1) 0) (buf.getD (len + 2) 0) =
        crc16 (buf.take (len + 1)) ∧
      p = (buf.drop 1).take len) ∧
    receiveResponse addr len o s =
      (receiveCheck len ((pollResponse addr (len + 3) 20 o s).1),
       (pollResponse addr (len + 3) 20 o s).2) := by
  have e : len + 3 - 2 = len + 1 := by omega
  refine ⟨?_, ?_, receiveCheck_some len buf, rfl⟩
  · intro h
    unfold receiveCheck
    rw [if_pos h]
  · intro h
    unfold receiveCheck
    rw [e]
    by_cases h1 : buf.getD 0 0 ≠ len + 3
    · rw [if_pos h1]
    · rw [if_neg h1, if_pos h]

/-- C4 witness: a buffer whose length byte is wrong (9 instead of 4)
is rejected. -/
theorem C4_response_validation_witness :
    receiveCheck 1 [9, 17, 51, 67] = none :=
  (C4_response_validation 1 [9, 17, 51, 67] 0x60
    ⟨fun _ => (0, []), fun _ => 0, fun _ => 0⟩ St.init).1 (by decide)

/-! ### Zone-granularity rejection (read/write with length not 4 or 32) -/

theorem read_invalid_run (addr zone a len : Nat) (o : Oracle) (s : St)
    (h4 : len ≠ 4) (h32 : len ≠ 32) :
    read addr zone a len o s = (none, (wakeup addr o s).2) := by
  simp only [read, bind_run, ite_run]
  split
  · rfl
  · rw [if_pos ⟨h4, h32⟩]
    rfl

theorem write_invalid_run (addr zone a : Nat) (buf : List Nat) (len : Nat)
    (o : Oracle) (s : St) (h4 : len ≠ 4) (h32 : len ≠ 32) :
    write addr zone a buf len o s = (0, (wakeup addr o s).2) := by
  simp only [write, bind_run, ite_run]
  split
  · rfl
  · rw [if_pos ⟨h4, h32⟩]
    rfl

/-- C1 (amended): a zone read or write whose length is neither 4 nor 32
fails, and no command frame is ever sent to the device (rejection comes
before the command transmission) — but the wake sequence *is* performed
first: the operation's final state is exactly the post-wakeup state. -/
theorem C1_zone_length_rejected (addr zone a : Nat) (buf : List Nat)
    (len : Nat) (o : Oracle) (h4 : len ≠ 4) (h32 : len ≠ 32) :
    (read addr zone a len o St.init).1 = none ∧
    (write addr zone a buf len o St.init).1 = 0 ∧
    sent ((read addr zone a len o St.init).2) = [] ∧
    sent ((write addr zone a buf len o St.init).2) = [] ∧
    (read addr zone a len o St.init).2 = (wakeup addr o St.init).2 ∧
    (write addr zone a buf len o St.init).2 = (wakeup addr o St.init).2 := by
  have hr := read_invalid_run addr zone a len o St.init h4 h32
  have hw := write_invalid_run addr zone a buf len o St.init h4 h32
  rw [hr, hw]
  have hs : sent ((wakeup addr o St.init).2) = [] := by
    rw [sent_wakeup]
    rfl
  exact ⟨rfl, rfl, hs, hs, rfl, rfl⟩

/-- C1 witness: length 5 is rejected at a concrete oracle. -/
theorem C1_zone_length_rejected_witness :
    (5 : Nat) ≠ 4 ∧ (5 : Nat) ≠ 32 ∧
    ((read 0x60 0 0 5 ⟨fun _ => (4, [4, 17, 51, 67]), fun _ => 0,
        fun _ => 0⟩ St.init).1 = none ∧
      (write 0x60 0 0 [1, 2, 3, 4, 5] 5 ⟨fun _ => (4, [4, 17, 51, 67]),
        fun _ => 0, fun _ => 0⟩ St.init).1 = 0 ∧
      sent ((read 0x60 0 0 5 ⟨fun _ => (4, [4, 17, 51, 67]), fun _ => 0,
        fun _ => 0⟩ St.init).2) = [] ∧
      sent ((write 0x60 0 0 [1, 2, 3, 4, 5] 5 ⟨fun _ => (4, [4, 17, 51, 67]),
        fun _ => 0, fun _ => 0⟩ St.init).2) = [] ∧
      (read 0x60 0 0 5 ⟨fun _ => (4, [4, 17, 51, 67]), fun _ => 0,
        fun _ => 0⟩ St.init).2 =
        (wakeup 0x60 ⟨fun _ => (4, [4, 17, 51, 67]), fun _ => 0,
          fun _ => 0⟩ St.init).2 ∧
      (write 0x60 0 0 [1, 2, 3, 4, 5] 5 ⟨fun _ => (4, [4, 17, 51, 67]),
        fun _ => 0, fun _ => 0⟩ St.init).2 =
        (wakeup 0x60 ⟨fun _ => (4, [4, 17, 51, 67]), fun _ => 0,
          fun _ => 0⟩ St.init).2) :=
  ⟨by decide, by decide,
    C1_zone_length_rejected 0x60 0 0 [1, 2, 3, 4, 5] 5
      ⟨fun _ => (4, [4, 17, 51, 67]), fun _ => 0, fun _ => 0⟩
      (by decide) (by decide)⟩

/-- C1 counterexample: at a concrete oracle that answers the wake poll
correctly, a read of length 5 fails as required, but bus transactions
(the general-call wake write and a response poll) *do* happen before the
rejection, contradicting the claim that no bus transaction of any kind
is performed. -/
theorem C1_counterexample :
    (read 0x60 0 0 5 ⟨fun _ => (4, [4, 17, 51, 67]), fun _ => 0,
        fun _ => 0⟩ St.init).1 = none ∧
    (read 0x60 0 0 5 ⟨fun _ => (4, [4, 17, 51, 67]), fun _ => 0,
        fun _ => 0⟩ St.init).2.trace ≠ [] ∧
    BusEvent.beginTx 0 ∈ (read 0x60 0 0 5 ⟨fun _ => (4, [4, 17, 51, 67]),
        fun _ => 0, fun _ => 0⟩ St.init).2.trace ∧
    BusEvent.requestFrom 0x60 4 ∈
      (read 0x60 0 0 5 ⟨fun _ => (4, [4, 17, 51, 67]), fun _ => 0,
        fun _ => 0⟩ St.init).2.trace := by
  decide

/-! ### Lock-status query -/

/-- C9: when the 4-byte configuration read at word offset `0x15` fails,
`locked` reports 0 (not locked) — a transport or protocol failure is
indistinguishable from an unlocked device at this interface; when the
read succeeds, `locked` reports 1 exactly when both trailing status
bytes are zero, so 1 is returned only after a successful read with both
bytes zero. -/
theorem locked_run_none (addr : Nat) (o : Oracle)
    (h : (read addr 0 0x15 4 o St.init).1 = none) :
    locked addr o St.init = (0, (read addr 0 0x15 4 o St.init).2) := by
  show (match (read addr 0 0x15 4 o St.init).1 with
    | none => (pure 0 : M Nat)
    | some config =>
      if config.getD 2 0 = 0 ∧ config.getD 3 0 = 0 then pure 1
      else pure 0) o (read addr 0 0x15 4 o St.init).2 = _
  rw [h]
  rfl

theorem locked_run_some (addr : Nat) (o : Oracle) (cfg : List Nat)
    (h : (read addr 0 0x15 4 o St.init).1 = some cfg) :
    locked addr o St.init =
      ((if cfg.getD 2 0 = 0 ∧ cfg.getD 3 0 = 0 then 1 else 0),
       (read addr 0 0x15 4 o St.init).2) := by
  show (match (read addr 0 0x15 4 o St.init).1 with
    | none => (pure 0 : M Nat)
    | some config =>
      if config.getD 2 0 = 0 ∧ config.getD 3 0 = 0 then pure 1
      else pure 0) o (read addr 0 0x15 4 o St.init).2 = _
  rw [h]
  show (if cfg.getD 2 0 = 0 ∧ cfg.getD 3 0 = 0 then (pure 1 : M Nat)
    else pure 0) o (read addr 0 0x15 4 o St.init).2 = _
  by_cases hcond : cfg.getD 2 0 = 0 ∧ cfg.getD 3 0 = 0
  · rw [if_pos hcond, if_pos hcond]
    rfl
  · rw [if_neg hcond, if_neg hcond]
    rfl

theorem C9_locked_read_failure (addr : Nat) (o : Oracle) :
    ((read addr 0 0x15 4 o St.init).1 = none →
      locked addr o St.init = (0, (read addr 0 0x15 4 o St.init).2)) ∧
    (∀ cfg, (read addr 0 0x15 4 o St.init).1 = some cfg →
      locked addr o St.init =
        ((if cfg.getD 2 0 = 0 ∧ cfg.getD 3 0 = 0 then 1 else 0),
         (read addr 0 0x15 4 o St.init).2)) ∧
    ((locked addr o St.init).1 = 1 →
      ∃ cfg, (read addr 0 0x15 4 o St.init).1 = some cfg ∧
        cfg.getD 2 0 = 0 ∧ cfg.getD 3 0 = 0) := by
  refine ⟨locked_run_none addr o, locked_run_some addr o, ?_⟩
  intro h1
  rcases h : (read addr 0 0x15 4 o St.init).1 with _ | cfg
  · rw [locked_run_none addr o h] at h1
    cases h1
  · rw [locked_run_some addr o cfg h] at h1
    by_cases hcond : cfg.getD 2 0 = 0 ∧ cfg.getD 3 0 = 0
    · exact ⟨cfg, rfl, hcond⟩
    · rw [if_neg hcond] at h1
      cases h1

/-- C9 witness: with a dead bus (every poll fails) the read fails and
`locked` returns 0. -/
theorem C9_locked_read_failure_witness :
    (read 0x60 0 0x15 4 ⟨fun _ => (0, []), fun _ => 1, fun _ => 1⟩
        St.init).1 = none ∧
    locked 0x60 ⟨fun _ => (0, []), fun _ => 1, fun _ => 1⟩ St.init =
      (0, (read 0x60 0 0x15 4 ⟨fun _ => (0, []), fun _ => 1, fun _ => 1⟩
        St.init).2) :=
  ⟨by decide,
    (C9_locked_read_failure 0x60
      ⟨fun _ => (0, []), fun _ => 1, fun _ => 1⟩).1 (by decide)⟩

/-! ### Zero-length random request -/

theorem idle_run (addr : Nat) (o : Oracle) (s : St) :
    idle addr o s =
      ((if o.endTx s.endCount ≠ 0 then 0 else 1),
       { s with endCount := s.endCount + 1,
                trace := s.trace ++
                  [.beginTx addr, .writeByte 0x02, .endTx] }) := by
  simp only [idle, bind_run, ite_run, beginTransmission, wireWrite, emit,
    endTransmission]
  split <;> simp [pure_run]

/-- C10: requesting 0 random bytes succeeds (provided only that the
wake sequence succeeds), without ever issuing the random-generation
command — no command frame at all is sent — and without producing any
bytes; the only bus activity after the wake is the settle delay and the
idle control write. -/
theorem C10_random_zero_length (addr : Nat) (o : Oracle)
    (hw : (wakeup addr o St.init).1 = 1) :
    (random addr 0 o St.init).1 = some [] ∧
    sent ((random addr 0 o St.init).2) = [] ∧
    (random addr 0 o St.init).2.trace =
      (wakeup addr o St.init).2.trace ++
        [.delayMs 1, .beginTx addr, .writeByte 0x02, .endTx] := by
  have h0 : ¬((wakeup addr o St.init).1 = 0) := by
    rw [hw]
    simp
  have hloop : ∀ s : St, randomLoop addr 0 o s = (some [], s) := by
    intro s
    simp [randomLoop, pure_run]
  have hrun : random addr 0 o St.init =
      (some [],
       { (wakeup addr o St.init).2 with
         endCount := (wakeup addr o St.init).2.endCount + 1,
         trace := (wakeup addr o St.init).2.trace ++
           [.delayMs 1, .beginTx addr, .writeByte 0x02, .endTx] }) := by
    simp only [random, bind_run, ite_run, if_neg h0]
    rw [hloop]
    simp only [bind_run, pure_run, delay, emit, idle_run]
    simp [pure_run]
  refine ⟨by rw [hrun], ?_, by rw [hrun]⟩
  rw [hrun]
  show sentData _ = []
  rw [sentData_append]
  have : sentData ((wakeup addr o St.init).2.trace) = [] := by
    have := sent_wakeup addr o St.init
    simpa [sent] using this
  rw [this]
  rfl

/-- C10 witness: at a concrete oracle whose wake poll succeeds,
requesting 0 bytes succeeds with no command frame sent. -/
theorem C10_random_zero_length_witness :
    (wakeup 0x60 ⟨fun _ => (4, [4, 17, 51, 67]), fun _ => 0, fun _ => 0⟩
        St.init).1 = 1 ∧
    (random 0x60 0 ⟨fun _ => (4, [4, 17, 51, 67]), fun _ => 0, fun _ => 0⟩
        St.init).1 = some [] :=
  ⟨by decide,
    (C10_random_zero_length 0x60
      ⟨fun _ => (4, [4, 17, 51, 67]), fun _ => 0, fun _ => 0⟩
      (by decide)).1⟩

/-! ### Device-wide lock ordering -/

theorem lock_run_fail (addr : Nat) (o : Oracle)
    (h0 : (lockZone addr 0 o St.init).1 = 0) :
    lock addr o St.init = (0, (lockZone addr 0 o St.init).2) := by
  simp only [lock, bind_run, ite_run, if_pos h0]
  rfl

theorem lock_run_ok (addr : Nat) (o : Oracle)
    (h0 : (lockZone addr 0 o St.init).1 ≠ 0) :
    lock addr o St.init =
      ((if (lockZone addr 1 o (lockZone addr 0 o St.init).2).1 = 0 then 0
        else 1),
       (lockZone addr 1 o (lockZone addr 0 o St.init).2).2) := by
  simp only [lock, bind_run, ite_run, if_neg h0]
  by_cases h1 : (lockZone addr 1 o (lockZone addr 0 o St.init).2).1 = 0
  · rw [if_pos h1, if_pos h1]
    rfl
  · rw [if_neg h1, if_neg h1]
    rfl

/-- C6: the device-wide lock always runs the zone-0 (configuration)
lock first; if it fails, the whole operation fails in exactly the
zone-0 lock's final state and the zone-1 lock frame is never sent; if
it succeeds, the zone-0 lock frame is the only frame sent so far and
the operation continues as the zone-1 lock from that state.  Globally,
the frames sent are always a prefix of [zone-0 lock frame, zone-1 lock
frame]. -/
theorem C6_lock_ordering (addr : Nat) (o : Oracle) :
    ((lockZone addr 0 o St.init).1 = 0 →
      lock addr o St.init = (0, (lockZone addr 0 o St.init).2) ∧
      commandFrame 0x17 (Nat.lor 0x80 1) 0 [] ∉
        sent ((lock addr o St.init).2)) ∧
    ((lockZone addr 0 o St.init).1 ≠ 0 →
      sent ((lockZone addr 0 o St.init).2) =
        [commandFrame 0x17 (Nat.lor 0x80 0) 0 []] ∧
      lock addr o St.init =
        ((if (lockZone addr 1 o (lockZone addr 0 o St.init).2).1 = 0 then 0
          else 1),
         (lockZone addr 1 o (lockZone addr 0 o St.init).2).2)) ∧
    (∃ m, sent ((lock addr o St.init).2) =
      [commandFrame 0x17 (Nat.lor 0x80 0) 0 [],
       commandFrame 0x17 (Nat.lor 0x80 1) 0 []].take m) := by
  have hne : commandFrame 0x17 (Nat.lor 0x80 0) 0 [] ≠
      commandFrame 0x17 (Nat.lor 0x80 1) 0 [] := by decide
  have hinit : sent St.init = [] := rfl
  have hc0 := lockZone_char addr 0 o St.init
  by_cases h0 : (lockZone addr 0 o St.init).1 = 0
  · refine ⟨fun _ => ⟨lock_run_fail addr o h0, ?_⟩, fun hn => absurd h0 hn,
      ?_⟩
    · rw [lock_run_fail addr o h0]
      rcases hc0.2.1 with hs | hs <;> rw [hs, hinit] <;> simp [hne.symm]
    · rw [lock_run_fail addr o h0]
      rcases hc0.2.1 with hs | hs
      · exact ⟨0, by rw [hs, hinit]; rfl⟩
      · exact ⟨1, by rw [hs, hinit]; rfl⟩
  · have h01 : (lockZone addr 0 o St.init).1 = 1 := by
      rcases hc0.1 with h | h
      · exact absurd h h0
      · exact h
    have hs0 : sent ((lockZone addr 0 o St.init).2) =
        [commandFrame 0x17 (Nat.lor 0x80 0) 0 []] := by
      rw [hc0.2.2 h01, hinit]
      rfl
    have hc1 := lockZone_char addr 1 o ((lockZone addr 0 o St.init).2)
    refine ⟨fun hn => absurd hn h0, fun _ => ⟨hs0, lock_run_ok addr o h0⟩,
      ?_⟩
    rw [lock_run_ok addr o h0]
    rcases hc1.2.1 with hs | hs
    · exact ⟨1, by rw [hs, hs0]; rfl⟩
    · exact ⟨2, by rw [hs, hs0]; rfl⟩

/-- C6 witness: with a dead bus the zone-0 lock fails, the device-wide
lock fails in the same state, and no zone-1 lock frame was sent. -/
theorem C6_lock_ordering_witness :
    (lockZone 0x60 0 ⟨fun _ => (0, []), fun _ => 1, fun _ => 1⟩
        St.init).1 = 0 ∧
    (lock 0x60 ⟨fun _ => (0, []), fun _ => 1, fun _ => 1⟩ St.init =
        (0, (lockZone 0x60 0 ⟨fun _ => (0, []), fun _ => 1, fun _ => 1⟩
          St.init).2) ∧
      commandFrame 0x17 (Nat.lor 0x80 1) 0 [] ∉
        sent ((lock 0x60 ⟨fun _ => (0, []), fun _ => 1, fun _ => 1⟩
          St.init).2)) :=
  ⟨by decide,
    (C6_lock_ordering 0x60 ⟨fun _ => (0, []), fun _ => 1, fun _ => 1⟩).1
      (by decide)⟩

/-! ### Signing composition -/

theorem commandResponse_some (addr op p1 p2 : Nat) (d : List Nat)
    (wait respLen : Nat) (o : Oracle) (s : St) (p : List Nat)
    (h : (commandResponse addr op p1 p2 d wait respLen o s).1 = some p) :
    p.length = respLen ∧ ∀ b ∈ p, b < 256 := by
  simp only [commandResponse, bind_run, ite_run] at h
  split at h
  · cases h
  · rcases hr : (receiveResponse addr respLen o
        ((delay wait o ((sendCommand addr op p1 p2 d o s).2)).2)).1 with _ | buf
    · rw [hr] at h
      cases h
    · rw [hr] at h
      have h2 : some buf = some p := h
      injection h2 with h2
      subst h2
      exact receiveResponse_some _ _ o _ buf hr

theorem sign_some (addr slot : Nat) (o : Oracle) (s : St) (sig : List Nat)
    (h : (sign addr slot o s).1 = some sig) :
    sig.length = 64 ∧ ∀ b ∈ sig, b < 256 := by
  simp only [sign, bind_run, ite_run] at h
  split at h
  · cases h
  · exact commandResponse_some _ _ _ _ _ _ _ o _ sig h

theorem ecSign_run_randomFail (addr slot : Nat) (msg : List Nat)
    (o : Oracle) (h : (random addr 32 o St.init).1 = none) :
    ecSign addr slot msg o St.init = (none, (random addr 32 o St.init).2) := by
  show (match (random addr 32 o St.init).1 with
    | none => (pure none : M (Option (List Nat)))
    | some _ => do
      let c ← challenge addr msg
      if c = 0 then pure none else sign addr slot)
      o (random addr 32 o St.init).2 = _
  rw [h]
  rfl

theorem ecSign_run_randomOk (addr slot : Nat) (msg x : List Nat)
    (o : Oracle) (h : (random addr 32 o St.init).1 = some x) :
    ecSign addr slot msg o St.init =
      (if (challenge addr msg o (random addr 32 o St.init).2).1 = 0
        then (none, (challenge addr msg o (random addr 32 o St.init).2).2)
        else sign addr slot o
          (challenge addr msg o (random addr 32 o St.init).2).2) := by
  show (match (random addr 32 o St.init).1 with
    | none => (pure none : M (Option (List Nat)))
    | some _ => do
      let c ← challenge addr msg
      if c = 0 then pure none else sign addr slot)
      o (random addr 32 o St.init).2 = _
  rw [h]
  show (if (challenge addr msg o (random addr 32 o St.init).2).1 = 0
    then (pure none : M (Option (List Nat))) else sign addr slot)
      o (challenge addr msg o (random addr 32 o St.init).2).2 = _
  by_cases hc : (challenge addr msg o (random addr 32 o St.init).2).1 = 0
  · rw [if_pos hc, if_pos hc]
    rfl
  · rw [if_neg hc, if_neg hc]

/-- C7: `ecSign` is exactly the sequence random-32-bytes, then
challenge with the message, then sign over the slot: if the random
generation fails the whole operation fails there; otherwise if the
challenge fails it fails there; otherwise the result is exactly the
sign command's result, and any signature returned is the device's
64-byte response payload. -/
theorem C7_ecSign_composition (addr slot : Nat) (msg : List Nat)
    (o : Oracle) :
    ((random addr 32 o St.init).1 = none →
      ecSign addr slot msg o St.init =
        (none, (random addr 32 o St.init).2)) ∧
    (∀ x, (random addr 32 o St.init).1 = some x →
      ((challenge addr msg o (random addr 32 o St.init).2).1 = 0 →
        ecSign addr slot msg o St.init =
          (none, (challenge addr msg o (random addr 32 o St.init).2).2)) ∧
      ((challenge addr msg o (random addr 32 o St.init).2).1 ≠ 0 →
        ecSign addr slot msg o St.init =
          sign addr slot o
            (challenge addr msg o (random addr 32 o St.init).2).2)) ∧
    (∀ sig, (ecSign addr slot msg o St.init).1 = some sig →
      sig.length = 64) := by
  refine ⟨ecSign_run_randomFail addr slot msg o, ?_, ?_⟩
  · intro x hx
    constructor
    · intro hc
      rw [ecSign_run_randomOk addr slot msg x o hx, if_pos hc]
    · intro hc
      rw [ecSign_run_randomOk addr slot msg x o hx, if_neg hc]
  · intro sig hsig
    rcases hx : (random addr 32 o St.init).1 with _ | x
    · rw [ecSign_run_randomFail addr slot msg o hx] at hsig
      cases hsig
    · rw [ecSign_run_randomOk addr slot msg x o hx] at hsig
      by_cases hc : (challenge addr msg o (random addr 32 o St.init).2).1 = 0
      · rw [if_pos hc] at hsig
        cases hsig
      · rw [if_neg hc] at hsig
        exact (sign_some addr slot o _ sig hsig).1

/-- C7 witness: with a dead bus the random generation fails and
`ecSign` fails in the same state. -/
theorem C7_ecSign_composition_witness :
    (random 0x60 32 ⟨fun _ => (0, []), fun _ => 1, fun _ => 1⟩
        St.init).1 = none ∧
    ecSign 0x60 0 (List.replicate 32 0)
        ⟨fun _ => (0, []), fun _ => 1, fun _ => 1⟩ St.init =
      (none, (random 0x60 32 ⟨fun _ => (0, []), fun _ => 1, fun _ => 1⟩
        St.init).2) :=
  ⟨by decide,
    (C7_ecSign_composition 0x60 0 (List.replicate 32 0)
      ⟨fun _ => (0, []), fun _ => 1, fun _ => 1⟩).1 (by decide)⟩

/-! ### Version check on open -/

theorem commandResponse_value (addr op p1 p2 : Nat) (d : List Nat)
    (wait respLen : Nat) (o : Oracle) (s : St) :
    (commandResponse addr op p1 p2 d wait respLen o s).1 =
      (if (sendCommand addr op p1 p2 d o s).1 = 0 then none
       else (receiveResponse addr respLen o
         ((delay wait o ((sendCommand addr op p1 p2 d o s).2)).2)).1) := by
  simp only [commandResponse, bind_run, ite_run]
  split
  · rfl
  · rcases hr : (receiveResponse addr respLen o
        ((delay wait o ((sendCommand addr op p1 p2 d o s).2)).2)).1 with _ | buf
    · rfl
    · rfl

theorem version_run_wakeFail (addr : Nat) (o : Oracle) (s : St)
    (hw : (wakeup addr o s).1 = 0) : (version addr o s).1 = 0 := by
  simp only [version, bind_run, ite_run, if_pos hw]
  rfl

theorem version_run_none (addr : Nat) (o : Oracle) (s : St)
    (hw : ¬((wakeup addr o s).1 = 0))
    (hn : (commandResponse addr 0x30 0x00 0x0000 [] 1 4 o
      ((wakeup addr o s).2)).1 = none) :
    (version addr o s).1 = 0 := by
  simp only [version, bind_run, ite_run, if_neg hw]
  rw [hn]
  rfl

theorem version_run_some (addr : Nat) (o : Oracle) (s : St) (p : List Nat)
    (hw : ¬((wakeup addr o s).1 = 0))
    (hp : (commandResponse addr 0x30 0x00 0x0000 [] 1 4 o
      ((wakeup addr o s).2)).1 = some p) :
    (version addr o s).1 = le32 p := by
  simp only [version, bind_run, ite_run, if_neg hw]
  rw [hp]
  rfl

theorem le32_eq_target (p : List Nat) (hlen : p.length = 4)
    (hmem : ∀ b ∈ p, b < 256) :
    (le32 p = 0x500000 ↔ p = [0x00, 0x00, 0x50, 0x00]) := by
  rcases p with _ | ⟨a, _ | ⟨b, _ | ⟨c, _ | ⟨d, _ | e⟩⟩⟩⟩ <;>
    simp_all [le32]
  have ha : a < 256 := hmem.1
  have hb : b < 256 := hmem.2.1
  have hc : c < 256 := hmem.2.2.1
  have hd : d < 256 := hmem.2.2.2
  omega

/-- C8: `begin` succeeds exactly when the version word read from the
device equals `0x500000`, and the version word equals `0x500000`
exactly when the version exchange succeeds with the 4-byte payload
`0x00 0x00 0x50 0x00`; any other payload, or any failure of the
exchange, makes `begin` report failure. -/
theorem C8_begin_version (addr : Nat) (o : Oracle) :
    ((begin addr o St.init).1 = 1 ↔
      (version addr o ⟨0, 0, 0, [.busBegin, .setClock 100000]⟩).1 =
        0x500000) ∧
    (∀ s : St, ((version addr o s).1 = 0x500000 ↔
      versionPayload addr o s = some [0x00, 0x00, 0x50, 0x00])) := by
  constructor
  · have hrun : (begin addr o St.init).1 =
        (if (version addr o ⟨0, 0, 0, [.busBegin, .setClock 100000]⟩).1 ≠
            0x500000 then 0 else 1) := by
      show ((if (version addr o
          ⟨0, 0, 0, [.busBegin, .setClock 100000]⟩).1 ≠ 0x500000
        then (pure 0 : M Nat) else pure 1) o
          ((version addr o ⟨0, 0, 0, [.busBegin, .setClock 100000]⟩).2)).1 = _
      by_cases hv : (version addr o
          ⟨0, 0, 0, [.busBegin, .setClock 100000]⟩).1 ≠ 0x500000
      · rw [if_pos hv, if_pos hv]
        rfl
      · rw [if_neg hv, if_neg hv]
        rfl
    rw [hrun]
    by_cases hv : (version addr o
        ⟨0, 0, 0, [.busBegin, .setClock 100000]⟩).1 = 0x500000
    · rw [if_neg (by rw [hv]; simp)]
      simp [hv]
    · rw [if_pos hv]
      simp [hv]
  · intro s
    by_cases hw : (wakeup addr o s).1 = 0
    · rw [version_run_wakeFail addr o s hw]
      have hvp : versionPayload addr o s = none := by
        simp only [versionPayload, if_pos hw]
      rw [hvp]
      simp
    · have hcrv := commandResponse_value addr 0x30 0x00 0x0000 [] 1 4 o
        ((wakeup addr o s).2)
      by_cases hsc : (sendCommand addr 0x30 0x00 0x0000 [] o
          ((wakeup addr o s).2)).1 = 0
      · have hn : (commandResponse addr 0x30 0x00 0x0000 [] 1 4 o
            ((wakeup addr o s).2)).1 = none := by
          rw [hcrv, if_pos hsc]
        rw [version_run_none addr o s hw hn]
        have hvp : versionPayload addr o s = none := by
          simp only [versionPayload, if_neg hw, if_pos hsc]
        rw [hvp]
        simp
      · rcases hr : (receiveResponse addr 4 o ((delay 1 o
            ((sendCommand addr 0x30 0x00 0x0000 [] o
              ((wakeup addr o s).2)).2)).2)).1 with _ | p
        · have hn : (commandResponse addr 0x30 0x00 0x0000 [] 1 4 o
              ((wakeup addr o s).2)).1 = none := by
            rw [hcrv, if_neg hsc, hr]
          rw [version_run_none addr o s hw hn]
          have hvp : versionPayload addr o s = none := by
            simp only [versionPayload, if_neg hw, if_neg hsc]
            exact hr
          rw [hvp]
          simp
        · have hp : (commandResponse addr 0x30 0x00 0x0000 [] 1 4 o
              ((wakeup addr o s).2)).1 = some p := by
            rw [hcrv, if_neg hsc, hr]
          rw [version_run_some addr o s p hw hp]
          have hvp : versionPayload addr o s = some p := by
            simp only [versionPayload, if_neg hw, if_neg hsc]
            exact hr
          rw [hvp]
          obtain ⟨hlen, hmem⟩ := receiveResponse_some addr 4 o _ p hr
          rw [le32_eq_target p hlen hmem]
          simp

/-! ### Configuration-zone write masking -/

theorem writeConfigLoop_char (addr : Nat) (data : List Nat) :
    ∀ (l : List Nat) (o : Oracle) (s : St),
      (∃ m, sent ((writeConfigLoop addr data l o s).2) =
        sent s ++ ((l.filter (fun i => decide (i ≠ 84))).take m).map
          (fun i => commandFrame 0x12 0 (i / 4)
            (fill 4 ((data.drop i).take 4)))) ∧
      ((writeConfigLoop addr data l o s).1 = 1 →
        sent ((writeConfigLoop addr data l o s).2) =
          sent s ++ (l.filter (fun i => decide (i ≠ 84))).map
            (fun i => commandFrame 0x12 0 (i / 4)
              (fill 4 ((data.drop i).take 4)))) := by
  intro l
  induction l with
  | nil =>
    intro o s
    exact ⟨⟨0, by simp [writeConfigLoop, pure_run]⟩,
      fun _ => by simp [writeConfigLoop, pure_run]⟩
  | cons i rest ih =>
    intro o s
    by_cases h84 : i = 84
    · subst h84
      have hrun : writeConfigLoop addr data (84 :: rest) o s =
          writeConfigLoop addr data rest o s := by
        simp [writeConfigLoop]
      have hfil : (84 :: rest).filter (fun j => decide (j ≠ 84)) =
          rest.filter (fun j => decide (j ≠ 84)) := by
        simp
      rw [hrun, hfil]
      exact ih o s
    · have hrun : writeConfigLoop addr data (i :: rest) o s =
          (if (write addr 0 (i / 4) ((data.drop i).take 4) 4 o s).1 = 0
            then (0, (write addr 0 (i / 4) ((data.drop i).take 4) 4 o s).2)
            else writeConfigLoop addr data rest o
              ((write addr 0 (i / 4) ((data.drop i).take 4) 4 o s).2)) := by
        simp only [writeConfigLoop, if_neg h84, bind_run, ite_run]
        by_cases hw : (write addr 0 (i / 4) ((data.drop i).take 4) 4 o s).1 = 0
        · rw [if_pos hw, if_pos hw]
          rfl
        · rw [if_neg hw, if_neg hw]
      have hfil : (i :: rest).filter (fun j => decide (j ≠ 84)) =
          i :: rest.filter (fun j => decide (j ≠ 84)) := by
        simp [h84]
      have hwc := write_char addr 0 (i / 4) ((data.drop i).take 4) o s
      rw [hrun, hfil]
      by_cases hw : (write addr 0 (i / 4) ((data.drop i).take 4) 4 o s).1 = 0
      · rw [if_pos hw]
        refine ⟨?_, fun h1 => by cases h1⟩
        rcases hwc.2.1 with hs | hs
        · exact ⟨0, by rw [hs]; simp⟩
        · exact ⟨1, by rw [hs]; simp⟩
      · rw [if_neg hw]
        have hw1 : (write addr 0 (i / 4) ((data.drop i).take 4) 4 o s).1 = 1 := by
          rcases hwc.1 with h | h
          · exact absurd h hw
          · exact h
        have hs := hwc.2.2 hw1
        obtain ⟨⟨m, ihm⟩, ihall⟩ :=
          ih o ((write addr 0 (i / 4) ((data.drop i).take 4) 4 o s).2)
        constructor
        · refine ⟨m + 1, ?_⟩
          rw [ihm, hs]
          simp [List.append_assoc]
        · intro h1
          rw [ihall h1, hs]
          simp [List.append_assoc]

/-- C5: the configuration-zone write never issues a write whose 4-byte
span intersects byte offsets `[0,16)` or `[84,88)`, whatever the data
and whatever the device does: every frame sent is the 4-byte write
command for some loop offset `i` with `16 ≤ i`, `i + 4 ≤ 128` and
`i ∉ [84,88)`.  When the operation succeeds, the frames sent are
exactly the writes for all 4-byte words of `[16,128)` except offset 84,
in order. -/
theorem C5_writeConfiguration_masking (addr : Nat) (data : List Nat)
    (o : Oracle) :
    (∀ f ∈ sent ((writeConfiguration addr data o St.init).2),
      ∃ i, i ∈ configOffsets ∧
        f = commandFrame 0x12 0 (i / 4) (fill 4 ((data.drop i).take 4)) ∧
        16 ≤ i ∧ i + 4 ≤ 128 ∧ ¬(84 ≤ i ∧ i < 88)) ∧
    ((writeConfiguration addr data o St.init).1 = 1 →
      sent ((writeConfiguration addr data o St.init).2) =
        (configOffsets.filter (fun i => decide (i ≠ 84))).map
          (fun i => commandFrame 0x12 0 (i / 4)
            (fill 4 ((data.drop i).take 4)))) := by
  obtain ⟨⟨m, hm⟩, hall⟩ := writeConfigLoop_char addr data configOffsets o St.init
  have hinit : sent St.init = [] := rfl
  constructor
  · intro f hf
    simp only [writeConfiguration] at hf
    rw [hm, hinit, List.nil_append] at hf
    obtain ⟨i, hi, hfi⟩ := List.mem_map.1 hf
    have hi2 := List.take_subset m _ hi
    have hi3 := List.mem_filter.1 hi2
    have hne : i ≠ 84 := by simpa using hi3.2
    have hio : i ∈ configOffsets := hi3.1
    have harith : 16 ≤ i ∧ i + 4 ≤ 128 ∧ ¬(84 ≤ i ∧ i < 88) := by
      have := hio
      simp only [configOffsets, List.mem_map, List.mem_range] at this
      obtain ⟨k, hk, hik⟩ := this
      omega
    exact ⟨i, hio, hfi.symm, harith.1, harith.2.1, harith.2.2⟩
  · intro h1
    simp only [writeConfiguration] at h1 ⊢
    rw [hall h1, hinit, List.nil_append]

/-- C5 witness: with an oracle that lets every exchange succeed, the
configuration write succeeds and its frames are exactly those of the
unmasked words, no others. -/
theorem C5_writeConfiguration_masking_witness :
    (writeConfiguration 0x60 (List.replicate 128 255)
        ⟨fun k => (4, if k % 2 = 0 then [4, 17, 51, 67] else [4, 0, 3, 64]),
          fun _ => 0, fun _ => 0⟩ St.init).1 = 1 ∧
    sent ((writeConfiguration 0x60 (List.replicate 128 255)
        ⟨fun k => (4, if k % 2 = 0 then [4, 17, 51, 67] else [4, 0, 3, 64]),
          fun _ => 0, fun _ => 0⟩ St.init).2) =
      (configOffsets.filter (fun i => decide (i ≠ 84))).map
        (fun i => commandFrame 0x12 0 (i / 4)
          (fill 4 (((List.replicate 128 255).drop i).take 4))) :=
  ⟨by decide,
    (C5_writeConfiguration_masking 0x60 (List.replicate 128 255)
      ⟨fun k => (4, if k % 2 = 0 then [4, 17, 51, 67] else [4, 0, 3, 64]),
        fun _ => 0, fun _ => 0⟩).2 (by decide)⟩

end ECC508

